import Mathlib

/-!
Verification of the résumé-parsing core of the Job Speedy backend
(`src/server.js`): text extraction, AI structured parsing with repair and
retry, schema normalization, and the heuristic profile builder.

JavaScript values are shallowly embedded as the inductive type `Value`
(numbers are modelled as integers; fractional literals are outside the
model, and no claim concerns them).  External collaborators — the PDF/DOC
decoder libraries and the completion service — are modelled as oracles
supplying their observable results; `JSON.parse` and the two contact
regexes are implemented faithfully as executable functions.
-/

/-- JavaScript/JSON values.  Numbers are modelled as integers. -/
inductive Value where
  | vNull : Value
  | vUndefined : Value
  | vBool : Bool → Value
  | vInt : Int → Value
  | vStr : String → Value
  | vArr : List Value → Value
  | vObj : List (String × Value) → Value

/-- JavaScript truthiness (`Boolean(v)`): `null`, `undefined`, `false`,
`0` and `""` are falsy, everything else (including `[]` and an empty
object) is truthy. -/
def jsTruthy : Value → Bool
  | .vNull => false
  | .vUndefined => false
  | .vBool b => b
  | .vInt n => n ≠ 0
  | .vStr s => s ≠ ""
  | .vArr _ => true
  | .vObj _ => true

/-- JavaScript `a || b`: the first operand when truthy, else the second. -/
def jsOr (a b : Value) : Value := if jsTruthy a then a else b

/-- The whitespace characters trimmed by JS `String.prototype.trim`
(ASCII portion; the résumé pipeline only meets ASCII whitespace). -/
def jsIsWs (c : Char) : Bool :=
  c = ' ' || c = '\t' || c = '\n' || c = '\r' || c = '\x0b' || c = '\x0c'

/-- JS `s.trim()`: strip leading and trailing whitespace. -/
def jsTrim (s : String) : String :=
  String.mk (((s.data.dropWhile jsIsWs).reverse.dropWhile jsIsWs).reverse)

/-- JS `s.slice(0, n)` for `n ≥ 0`: the prefix of length at most `n`
(code-unit subtleties do not arise for the ASCII texts modelled here). -/
def jsSlice (s : String) (n : Nat) : String := String.mk (s.data.take n)

/-- JS `String(v)` coercion for an array element position of `join` where
`null`/`undefined` render as the empty string. -/
def jsToStringList : List Value → List String
  | [] => []
  | .vNull :: xs => "" :: jsToStringList xs
  | .vUndefined :: xs => "" :: jsToStringList xs
  | x :: xs => jsToStr x :: jsToStringList xs
where
  /-- JS `String(v)` coercion. -/
  jsToStr : Value → String
    | .vNull => "null"
    | .vUndefined => "undefined"
    | .vBool b => if b then "true" else "false"
    | .vInt n => toString n
    | .vStr s => s
    | .vArr xs => String.intercalate "," (jsToStringList xs)
    | .vObj _ => "[object Object]"

/-- JS `String(v)` coercion (top level). -/
def jsToString : Value → String := jsToStringList.jsToStr

/-- Property lookup in an association list of object fields. -/
def objFind : List (String × Value) → String → Value
  | [], _ => .vUndefined
  | (k, v) :: fs, key => if k = key then v else objFind fs key

/-- JS property access `v.key`; absent fields and non-object receivers
yield `undefined` (every receiver in the embedded code is guarded to be
an object or a primitive, never `null`/`undefined`). -/
def objGet : Value → String → Value
  | .vObj fs, key => objFind fs key
  | _, _ => .vUndefined

/-- The key list of an object value. -/
def objKeys : Value → List String
  | .vObj fs => fs.map Prod.fst
  | _ => []

/-- Replace the value of `key` (first occurrence) or append it — JS
property assignment on an object. -/
def objSet : Value → String → Value → Value
  | .vObj fs, key, w => .vObj (setFields fs key w)
  | v, _, _ => v
where
  setFields : List (String × Value) → String → Value → List (String × Value)
    | [], key, w => [(key, w)]
    | (k, v) :: fs, key, w =>
      if k = key then (key, w) :: fs else (k, v) :: setFields fs key w

/-- The underlying element list of an array value. -/
def arrList : Value → List Value
  | .vArr xs => xs
  | _ => []

/-! ### A small backtracking regex engine

The two contact regexes of `normalizeParsed` — the email pattern
`[A-Z0-9._%+-]+@[A-Z0-9.-]+\.[A-Z]{2,}` (case-insensitive) and the phone
pattern `\+?\d[\d\s\-\(\)]{7,}\d` — are concatenations of character
classes under greedy quantifiers.  `reSearch` implements JS
`String.prototype.match` for exactly that fragment: leftmost starting
position, greedy quantifiers with backtracking. -/

/-- One regex item: a character class with a minimum repetition count;
`maxOne = true` restricts it to at most one repetition (literal or `?`),
`maxOne = false` leaves it unbounded (`+`, `{n,}`). -/
structure ReItem where
  cls : Char → Bool
  minRep : Nat
  maxOne : Bool

/-- The (consumed, remainder) splittings an item may produce at the
current position, in the order a greedy backtracking engine tries them
(longest first). -/
def reCandidates (it : ReItem) (s : List Char) : List (List Char × List Char) :=
  if it.maxOne then
    match s with
    | c :: rest =>
      if it.cls c then
        if it.minRep = 0 then [([c], rest), ([], s)] else [([c], rest)]
      else if it.minRep = 0 then [([], s)] else []
    | [] => if it.minRep = 0 then [([], [])] else []
  else
    let maxRun := (s.takeWhile it.cls).length
    (List.range (maxRun + 1)).reverse.filterMap fun k =>
      if it.minRep ≤ k then some (s.take k, s.drop k) else none

/-- Try the candidate splittings in order, continuing with `next` on the
remainder; the first full success wins. -/
def reTryCands (next : List Char → Option (List Char)) :
    List (List Char × List Char) → Option (List Char)
  | [] => none
  | (consumed, rem) :: more =>
    match next rem with
    | some tail => some (consumed ++ tail)
    | none => reTryCands next more

/-- Match a whole item sequence at the current position, returning the
consumed characters of the leftmost-greedy match. -/
def reMatchSeq : List ReItem → List Char → Option (List Char)
  | [], _ => some []
  | it :: rest, s => reTryCands (reMatchSeq rest) (reCandidates it s)

/-- JS `text.match(re)` (first element): scan start positions left to
right and return the first match. -/
def reSearch (items : List ReItem) : List Char → Option String
  | [] => (reMatchSeq items []).map String.mk
  | c :: cs =>
    match reMatchSeq items (c :: cs) with
    | some m => some (String.mk m)
    | none => reSearch items cs

/-- Character class `[A-Z0-9._%+-]` with the `i` flag. -/
def emailLocalClass (c : Char) : Bool :=
  c.isAlpha || c.isDigit || c = '.' || c = '_' || c = '%' || c = '+' || c = '-'

/-- Character class `[A-Z0-9.-]` with the `i` flag. -/
def emailDomainClass (c : Char) : Bool :=
  c.isAlpha || c.isDigit || c = '.' || c = '-'

/-- The email regex `[A-Z0-9._%+-]+@[A-Z0-9.-]+\.[A-Z]{2,}/i` of
`normalizeParsed`. -/
def emailItems : List ReItem :=
  [⟨emailLocalClass, 1, false⟩, ⟨fun c => c = '@', 1, true⟩,
   ⟨emailDomainClass, 1, false⟩, ⟨fun c => c = '.', 1, true⟩,
   ⟨Char.isAlpha, 2, false⟩]

/-- The JS `\s` class (ASCII portion). -/
def reSpace (c : Char) : Bool :=
  c = ' ' || c = '\t' || c = '\n' || c = '\r' || c = '\x0b' || c = '\x0c'

/-- Character class `[\d\s\-\(\)]`. -/
def phoneMidClass (c : Char) : Bool :=
  c.isDigit || reSpace c || c = '-' || c = '(' || c = ')'

/-- The phone regex `(\+?\d[\d\s\-\(\)]{7,}\d)` of `normalizeParsed`. -/
def phoneItems : List ReItem :=
  [⟨fun c => c = '+', 0, true⟩, ⟨Char.isDigit, 1, true⟩,
   ⟨phoneMidClass, 7, false⟩, ⟨Char.isDigit, 1, true⟩]

/-- `(text.match(re) || [null])[0]`: the matched string, or `null`. -/
def matchToValue : Option String → Value
  | some m => .vStr m
  | none => .vNull

/-! ### String splitting, as used by the normalizer and the heuristic -/

/-- JS `s.split(re)` where `re` matches ONE separator character
(e.g. `/,|\n/`): every separator character ends a field, so adjacent
separators produce empty fields. -/
def splitSingleAux (p : Char → Bool) : List Char → List Char → List String
  | [], cur => [String.mk cur.reverse]
  | c :: cs, cur =>
    if p c then String.mk cur.reverse :: splitSingleAux p cs []
    else splitSingleAux p cs (c :: cur)

/-- See `splitSingleAux`. -/
def splitSingle (p : Char → Bool) (s : String) : List String :=
  splitSingleAux p s.data [] 

/-- JS `s.split(re)` where `re` matches a RUN of separator characters
(e.g. `/[\s,;\/\n]+/`): a maximal run of separators ends one field. -/
def splitRunsAux (p : Char → Bool) : List Char → List Char → Bool → List String
  | [], cur, _ => [String.mk cur.reverse]
  | c :: cs, cur, inRun =>
    if p c then
      if inRun then splitRunsAux p cs [] true
      else String.mk cur.reverse :: splitRunsAux p cs [] true
    else splitRunsAux p cs (c :: cur) false

/-- See `splitRunsAux`. -/
def splitRuns (p : Char → Bool) (s : String) : List String :=
  splitRunsAux p s.data [] false

/-! ### JSON.parse

A faithful executable model of `JSON.parse` producing a `Value`, except
that numeric literals are modelled as integers: a fractional or exponent
literal makes the parse fail in the model (no claim involves non-integer
numbers).  Duplicate object keys follow JS semantics (position of the
first occurrence, value of the last). -/

/-- JSON whitespace. -/
def jsonWs (c : Char) : Bool := c = ' ' || c = '\t' || c = '\n' || c = '\r'

/-- Hexadecimal digit value. -/
def hexDigitVal (c : Char) : Option Nat :=
  if '0' ≤ c ∧ c ≤ '9' then some (c.toNat - '0'.toNat)
  else if 'a' ≤ c ∧ c ≤ 'f' then some (c.toNat - 'a'.toNat + 10)
  else if 'A' ≤ c ∧ c ≤ 'F' then some (c.toNat - 'A'.toNat + 10)
  else none

/-- Parse the body of a JSON string literal (after the opening quote),
returning the decoded characters and the input after the closing quote. -/
def parseStrChars : List Char → Option (List Char × List Char)
  | [] => none
  | '"' :: rest => some ([], rest)
  | '\\' :: 'u' :: h1 :: h2 :: h3 :: h4 :: rest =>
    match hexDigitVal h1, hexDigitVal h2, hexDigitVal h3, hexDigitVal h4 with
    | some a, some b, some c, some d =>
      match parseStrChars rest with
      | some (s, rr) => some (Char.ofNat (((a * 16 + b) * 16 + c) * 16 + d) :: s, rr)
      | none => none
    | _, _, _, _ => none
  | '\\' :: e :: rest =>
    let esc : Option Char :=
      if e = '"' then some '"' else if e = '\\' then some '\\'
      else if e = '/' then some '/' else if e = 'b' then some '\x08'
      else if e = 'f' then some '\x0c' else if e = 'n' then some '\n'
      else if e = 'r' then some '\r' else if e = 't' then some '\t'
      else none
    match esc with
    | some c =>
      match parseStrChars rest with
      | some (s, rr) => some (c :: s, rr)
      | none => none
    | none => none
  | c :: rest =>
    if c.toNat < 32 then none
    else
      match parseStrChars rest with
      | some (s, rr) => some (c :: s, rr)
      | none => none

/-- Parse a JSON integer literal (optional `-`, no leading zeros); a
following `.`, `e` or `E` (a non-integer literal) is outside the model. -/
def parseJInt (cs : List Char) : Option (Int × List Char) :=
  let (neg, cs1) := match cs with
    | '-' :: rest => (true, rest)
    | _ => (false, cs)
  let digits := cs1.takeWhile Char.isDigit
  let rest := cs1.dropWhile Char.isDigit
  if digits = [] then none
  else if digits.length > 1 ∧ digits.headD '0' = '0' then none
  else
    match rest with
    | '.' :: _ => none
    | 'e' :: _ => none
    | 'E' :: _ => none
    | _ =>
      let n : Nat := digits.foldl (fun acc c => acc * 10 + (c.toNat - '0'.toNat)) 0
      some (if neg then -(n : Int) else (n : Int), rest)

/-- Insert an object member with JS duplicate-key semantics: the first
occurrence keeps its position, the last value wins. -/
def jsonInsert : List (String × Value) → String → Value → List (String × Value)
  | [], key, v => [(key, v)]
  | (k, w) :: fs, key, v =>
    if k = key then (k, v) :: fs else (k, w) :: jsonInsert fs key v

mutual

/-- Parse one JSON value (fuel-indexed; the driver supplies ample fuel). -/
def parseJValue : Nat → List Char → Option (Value × List Char)
  | 0, _ => none
  | Nat.succ fuel, cs =>
    match cs.dropWhile jsonWs with
    | [] => none
    | 'n' :: 'u' :: 'l' :: 'l' :: rest => some (.vNull, rest)
    | 't' :: 'r' :: 'u' :: 'e' :: rest => some (.vBool true, rest)
    | 'f' :: 'a' :: 'l' :: 's' :: 'e' :: rest => some (.vBool false, rest)
    | '"' :: rest =>
      match parseStrChars rest with
      | some (s, rr) => some (.vStr (String.mk s), rr)
      | none => none
    | '[' :: rest =>
      (match rest.dropWhile jsonWs with
       | ']' :: rr => some (.vArr [], rr)
       | _ => parseJItems fuel [] rest)
    | '{' :: rest =>
      (match rest.dropWhile jsonWs with
       | '}' :: rr => some (.vObj [], rr)
       | _ => parseJMembers fuel [] rest)
    | other =>
      match parseJInt other with
      | some (n, rest) => some (.vInt n, rest)
      | none => none

/-- Parse the remaining items of a non-empty JSON array. -/
def parseJItems : Nat → List Value → List Char → Option (Value × List Char)
  | 0, _, _ => none
  | Nat.succ fuel, acc, cs =>
    match parseJValue fuel cs with
    | none => none
    | some (v, rest) =>
      match rest.dropWhile jsonWs with
      | ']' :: rr => some (.vArr (acc ++ [v]), rr)
      | ',' :: rr => parseJItems fuel (acc ++ [v]) rr
      | _ => none

/-- Parse the remaining members of a non-empty JSON object. -/
def parseJMembers : Nat → List (String × Value) → List Char → Option (Value × List Char)
  | 0, _, _ => none
  | Nat.succ fuel, acc, cs =>
    match cs.dropWhile jsonWs with
    | '"' :: rest =>
      match parseStrChars rest with
      | none => none
      | some (key, rest2) =>
        match rest2.dropWhile jsonWs with
        | ':' :: rest3 =>
          match parseJValue fuel rest3 with
          | none => none
          | some (v, rest4) =>
            let acc' := jsonInsert acc (String.mk key) v
            match rest4.dropWhile jsonWs with
            | '}' :: rr => some (.vObj acc', rr)
            | ',' :: rr => parseJMembers fuel acc' rr
            | _ => none
        | _ => none
    | _ => none

end

/-- `JSON.parse(s)`: parse one value, require only whitespace after it;
`none` models the thrown `SyntaxError`. -/
def jsonParse (s : String) : Option Value :=
  match parseJValue (2 * s.data.length + 8) s.data with
  | some (v, rest) => if rest.dropWhile jsonWs = [] then some v else none
  | none => none

/-! ### Schema normalizer (`normalizeSkills`, `normalizeExperience`,
`normalizeParsed` of `src/server.js`) -/

/-- `normalizeSkills(raw)`: an array is stringified/trimmed and blanks
dropped; a string is split on `,` or newline, trimmed, blanks dropped;
anything else yields `[]`. -/
def normalizeSkills : Value → List String
  | .vArr xs => (xs.map fun s => jsTrim (jsToString s)).filter fun s => s ≠ ""
  | .vStr s =>
    ((splitSingle (fun c => c = ',' || c = '\n') s).map jsTrim).filter fun s => s ≠ ""
  | _ => []

/-- The object literal returned for each normalized experience entry. -/
def mkExpEntry (title company startDate endDate resps : Value) : Value :=
  .vObj [("title", title), ("company", company), ("start_date", startDate),
         ("end_date", endDate), ("responsibilities", resps)]

/-- The per-entry body of `normalizeExperience`. -/
def normExpEntry (item : Value) : Value :=
  let obj := jsOr item (.vObj [])
  mkExpEntry
    (jsOr (jsOr (objGet obj "title") (objGet obj "role")) (.vStr ""))
    (jsOr (jsOr (objGet obj "company") (objGet obj "organization")) (.vStr ""))
    (jsOr (jsOr (jsOr (objGet obj "start_date") (objGet obj "startDate"))
      (objGet obj "from")) (.vStr ""))
    (jsOr (jsOr (jsOr (objGet obj "end_date") (objGet obj "endDate"))
      (objGet obj "to")) (.vStr ""))
    (.vArr ((normalizeSkills (jsOr (jsOr (objGet obj "responsibilities")
      (objGet obj "responsibility")) (.vArr []))).map .vStr))

/-- `normalizeExperience(raw)`: non-arrays yield `[]`; each entry is
coalesced over its alternate key spellings. -/
def normalizeExperience : Value → List Value
  | .vArr xs => xs.map normExpEntry
  | _ => []

/-- The contact object literal of the canonical profile. -/
def mkContact (name email phone location : Value) : Value :=
  .vObj [("name", name), ("email", email), ("phone", phone),
         ("location", location)]

/-- The canonical-profile object literal (the eight top-level keys, in
source order). -/
def mkProfile (skills contact summary experience education certifications
    languages links : Value) : Value :=
  .vObj [("skills", skills), ("contact", contact), ("summary", summary),
         ("experience", experience), ("education", education),
         ("certifications", certifications), ("languages", languages),
         ("links", links)]

/-- `Array.isArray(v) ? v : []` (the `education` rule). -/
def eduCoerce : Value → Value
  | .vArr xs => .vArr xs
  | _ => .vArr []

/-- `normalizeParsed(parsed, resumeText)`: coerce any loosely-typed value
into the canonical profile, filling contact email/phone from regex
matches over `resumeText` when absent. -/
def normalizeParsed (parsed : Value) (resumeText : String) : Value :=
  let safe := jsOr parsed (.vObj [])
  let contact := jsOr (objGet safe "contact") (.vObj [])
  let email := jsOr (jsOr (objGet safe "email") (objGet contact "email"))
    (matchToValue (reSearch emailItems resumeText.data))
  let phone := jsOr (jsOr (objGet safe "phone") (objGet contact "phone"))
    (matchToValue (reSearch phoneItems resumeText.data))
  mkProfile
    (.vArr ((normalizeSkills (objGet safe "skills")).map .vStr))
    (mkContact
      (jsOr (jsOr (objGet contact "name") (objGet safe "name")) .vNull)
      (jsOr email .vNull)
      (jsOr phone .vNull)
      (jsOr (jsOr (objGet contact "location") (objGet safe "location")) .vNull))
    (jsOr (objGet safe "summary") (.vStr ""))
    (.vArr (normalizeExperience (objGet safe "experience")))
    (eduCoerce (objGet safe "education"))
    (.vArr ((normalizeSkills (objGet safe "certifications")).map .vStr))
    (.vArr ((normalizeSkills (objGet safe "languages")).map .vStr))
    (.vArr ((normalizeSkills (objGet safe "links")).map .vStr))

/-! ### Heuristic profile builder (`extractSkillsHeuristic`,
`heuristicParsed`) -/

/-- The separator class of `/[\s,;\/\n]+/`. -/
def heurSep (c : Char) : Bool := reSpace c || c = ',' || c = ';' || c = '/'

/-- The character class kept by `replace(/[^A-Za-z0-9\+\#\.\-]/g, '')`. -/
def skillCharOk (c : Char) : Bool :=
  c.isAlpha || c.isDigit || c = '+' || c = '#' || c = '.' || c = '-'

/-- The fixed stop-word set of the heuristic. -/
def commonStop : List String :=
  ["and", "or", "the", "a", "an", "to", "in", "of", "for", "on", "with",
   "at", "by", "from"]

/-- JS `w.toLowerCase()` (ASCII portion). -/
def jsToLower (s : String) : String := String.mk (s.data.map Char.toLower)

/-- The collection loop of `extractSkillsHeuristic`: skip stop words,
case-insensitively deduplicate, stop once 50 tokens are collected. -/
def heurLoop : List String → List String → List String → List String
  | [], _, acc => acc.reverse
  | w :: ws, seen, acc =>
    let key := jsToLower w
    if commonStop.contains key then heurLoop ws seen acc
    else if seen.contains key then heurLoop ws seen acc
    else
      let acc' := w :: acc
      if 50 ≤ acc'.length then acc'.reverse
      else heurLoop ws (key :: seen) acc'

/-- `extractSkillsHeuristic(resumeText)`. -/
def extractSkillsHeuristic (resumeText : String) : List String :=
  if resumeText = "" then []
  else
    let candidates := ((splitRuns heurSep resumeText).map
        (fun w => String.mk (w.data.filter skillCharOk))).filter
      fun w => 1 < w.length ∧ w.length < 40
    heurLoop candidates [] []

/-- `heuristicParsed(resumeText)`: the no-AI profile, normalized. -/
def heuristicParsed (resumeText : String) : Value :=
  normalizeParsed
    (.vObj [("skills", .vArr ((extractSkillsHeuristic resumeText).map .vStr)),
            ("contact", .vObj []),
            ("summary", .vStr "Parsed resume text without AI (heuristic fallback)"),
            ("experience", .vArr [])])
    resumeText

/-! ### AI structured parser (`parseAiResponseToJson`, `repairAiResponse`,
`aiParseResume`)

The completion service is an external collaborator; an `AiOracle` records
the observable outcome of each of the at most four network calls a single
request can make.  A primary call that itself throws aborts the whole
function with the network error (outside the AI-parse protocol) and only
shortens the call sequence, so primary responses are modelled as the
content strings (`completion.choices[0]?.message?.content || ''`).  A
repair call has its own `try`/`catch`: its outcome is either a thrown
error (`Except.error`), missing/empty content, or a content string. -/

/-- Outcomes of the external completion calls for one request:
`resp1`/`resp2` are the two primary responses, `repair1`/`repair2` the
outcomes of the repair sub-call of each attempt (consulted only when that
attempt's primary response fails to parse). -/
structure AiOracle where
  resp1 : String
  repair1 : Except Unit (Option String)
  resp2 : String
  repair2 : Except Unit (Option String)

/-- `parseAiResponseToJson(aiResponse, resumeText)`: `JSON.parse` then
normalize; `null` when parsing throws. -/
def parseAiResponseToJson (aiResponse : String) (resumeText : String) :
    Option Value :=
  match jsonParse aiResponse with
  | some parsed => some (normalizeParsed parsed resumeText)
  | none => none

/-- `repairAiResponse(openaiClient, aiResponse, resumeText)`: one repair
call; a thrown call, missing/falsy content, or unparseable repaired
content all yield `null`. -/
def repairAiResponse (outcome : Except Unit (Option String))
    (resumeText : String) : Option Value :=
  match outcome with
  | .error _ => none
  | .ok none => none
  | .ok (some repaired) =>
    if repaired = "" then none
    else
      match jsonParse repaired with
      | some parsed => some (normalizeParsed parsed resumeText)
      | none => none

/-- A network call of `aiParseResume`: primary attempt `i` or the repair
sub-call of attempt `i`. -/
inductive AiCall where
  | prim : Nat → AiCall
  | rep : Nat → AiCall

/-- Is this a primary completion call? -/
def AiCall.isPrim : AiCall → Bool
  | .prim _ => true
  | .rep _ => false

/-- Equality test on calls (for counting occurrences in a trace). -/
def AiCall.is : AiCall → AiCall → Bool
  | .prim i, .prim j => i = j
  | .rep i, .rep j => i = j
  | _, _ => false

/-- One AI attempt: the primary response is parsed; on failure the repair
sub-call is consulted (at most once).  Returns the parsed profile (if
any) and the calls issued. -/
def aiAttempt (resp : String) (repairOutcome : Except Unit (Option String))
    (truncatedText : String) (i : Nat) : Option Value × List AiCall :=
  match parseAiResponseToJson resp truncatedText with
  | some v => (some v, [.prim i])
  | none => (repairAiResponse repairOutcome truncatedText, [.prim i, .rep i])

/-- `!s.trim()` on a skills entry of a normalized profile (entries are
always strings there): blank means the trimmed string is empty. -/
def skillBlank : Value → Bool
  | .vStr s => jsTrim s = ""
  | _ => false

/-- The emptiness criterion of `aiParseResume`'s retry test, over a
normalized profile: skills empty or all-blank AND experience empty AND
none of contact name/email/phone present.  The `certifications`,
`languages`, `links` and `education` fields are not consulted. -/
def profileEmptyB (parsed : Value) : Bool :=
  (((arrList (objGet parsed "skills")).length = 0 : Bool) ||
      (arrList (objGet parsed "skills")).all skillBlank) &&
    ((arrList (objGet parsed "experience")).length = 0 : Bool) &&
    (!jsTruthy (objGet (objGet parsed "contact") "name") &&
      !jsTruthy (objGet (objGet parsed "contact") "email") &&
      !jsTruthy (objGet (objGet parsed "contact") "phone"))

/-- The `needsRetry` criterion of `aiParseResume`: no parsed result, or a
parsed-but-empty profile. -/
def needsRetry : Option Value → Bool
  | none => true
  | some parsed => profileEmptyB parsed

/-- `aiParseResume(openaiClient, resumeText)`: first attempt (with at
most one repair), a focused second attempt when the result is missing or
empty, and the terminal `'AI parse failed'` error when no attempt yielded
a parseable profile.  Also returns the trace of completion calls. -/
def aiParseResume (o : AiOracle) (resumeText : String) :
    Except String Value × List AiCall :=
  let truncatedText := jsSlice resumeText 15000
  let a1 := aiAttempt o.resp1 o.repair1 truncatedText 1
  let res :=
    if needsRetry a1.1 then
      let a2 := aiAttempt o.resp2 o.repair2 truncatedText 2
      (a2.1, a1.2 ++ a2.2)
    else a1
  match res.1 with
  | some v => (.ok v, res.2)
  | none => (.error "AI parse failed", res.2)

/-! ### Text extractor (`extractResumeText`)

The four decoder backends are external collaborators; an `ExtractEnv`
records whether each optional library is installed and the observable
outcome of each decoder on the supplied file (`Except.error` models a
thrown decoder error, e.g. a malformed file or a missing buffer). -/

/-- Decoder availability and outcomes for one uploaded file. -/
structure ExtractEnv where
  pdfjsAvail : Bool
  pdfParseAvail : Bool
  mammothAvail : Bool
  pdfjsText : Except Unit String
  pdfParseText : Except Unit String
  mammothText : Except Unit String
  rawText : Except Unit String

/-- The pdfjs PDF branch: guarded early return
`if (text.trim()) return text.slice(0, maxChars)`. -/
def pdfjsBranch (ext : String) (env : ExtractEnv) (maxChars : Nat) :
    Option String :=
  if ext = ".pdf" ∧ env.pdfjsAvail then
    match env.pdfjsText with
    | .ok text => if jsTrim text ≠ "" then some (jsSlice text maxChars) else none
    | .error _ => none
  else none

/-- The pdf-parse PDF branch: guarded early return
`if (parsed.text && parsed.text.trim()) return parsed.text.slice(0, maxChars)`. -/
def pdfParseBranch (ext : String) (env : ExtractEnv) (maxChars : Nat) :
    Option String :=
  if ext = ".pdf" ∧ env.pdfParseAvail then
    match env.pdfParseText with
    | .ok text =>
      if text ≠ "" ∧ jsTrim text ≠ "" then some (jsSlice text maxChars) else none
    | .error _ => none
  else none

/-- The DOC/DOCX mammoth branch: `if (result.value && result.value.trim())
return result.value;` — note: NO `maxChars` cap is applied here, exactly
as in the source. -/
def mammothBranch (ext : String) (env : ExtractEnv) : Option String :=
  if (ext = ".docx" ∨ ext = ".doc") ∧ env.mammothAvail then
    match env.mammothText with
    | .ok value => if value ≠ "" ∧ jsTrim value ≠ "" then some value else none
    | .error _ => none
  else none

/-- The unconditional raw UTF-8 decode branch:
`if (text.trim()) return text.slice(0, maxChars)` inside a `try` whose
failure falls through to the final `return ''`. -/
def rawBranch (env : ExtractEnv) (maxChars : Nat) : Option String :=
  match env.rawText with
  | .ok text => if jsTrim text ≠ "" then some (jsSlice text maxChars) else none
  | .error _ => none

/-- `extractResumeText(file, maxChars = 60000)`: the ordered decoder
chain, stopping at the first branch that returns. -/
def extractResumeText (ext : String) (env : ExtractEnv)
    (maxChars : Nat := 60000) : String :=
  match pdfjsBranch ext env maxChars with
  | some r => r
  | none =>
    match pdfParseBranch ext env maxChars with
    | some r => r
    | none =>
      match mammothBranch ext env with
      | some r => r
      | none =>
        match rawBranch env maxChars with
        | some r => r
        | none => ""

/-! ### The `/api/parse-resume` route (file-upload branch)

The route extracts text, rejects blank extractions, rejects requests when
no OpenAI client is configured, and otherwise performs a single AI call
with one repair.  `heuristicParsed` is never invoked by any route. -/

/-- Observable outcomes of the route handler, lines 2241–2296 of
`src/server.js`. -/
inductive RouteResult where
  | noTextError : RouteResult
  | aiNotConfigured : RouteResult
  | aiParseFailed : String → RouteResult
  | parsedOk : Value → RouteResult

/-- The parse-resume route handler after text extraction: the blank-text
guard (400), the `!openai` guard (503), then one completion call with at
most one repair. -/
def parseResumeRoute (openaiConfigured : Bool) (resumeText : String)
    (aiResponse : String) (repairOutcome : Except Unit (Option String)) :
    RouteResult :=
  if resumeText = "" ∨ jsTrim resumeText = "" then .noTextError
  else if !openaiConfigured then .aiNotConfigured
  else
    let truncatedText := jsSlice resumeText 15000
    match parseAiResponseToJson aiResponse truncatedText with
    | some parsed => .parsedOk parsed
    | none =>
      match repairAiResponse repairOutcome truncatedText with
      | some parsed => .parsedOk parsed
      | none => .aiParseFailed (jsSlice aiResponse 500)

/-! ### Concrete instances used by counterexamples and witnesses -/

/-- Completion-service outcomes where the first response is the valid
JSON `{}` (normalizing, over a contact-free text, to an empty profile)
and the second attempt and its repair return unparseable text. -/
def oEmptyThenBad : AiOracle := ⟨"\x7b\x7d", .ok none, "nope", .ok (some "nope")⟩

/-- Completion-service outcomes where the first attempt never parses and
the second response is the valid JSON `{}`. -/
def oBadThenEmpty : AiOracle := ⟨"bad", .ok none, "\x7b\x7d", .ok none⟩

/-- A raw object whose skills entry needs trimming. -/
def rawWithSkill : Value := .vObj [("skills", .vArr [.vStr " a "])]

/-- A 60,001-character DOC/DOCX extraction result. -/
def bigDocxText : String := String.mk (List.replicate 60001 'a')

/-- Decoder outcomes for a `.docx` file whose mammoth extraction yields
60,001 characters. -/
def envBigDocx : ExtractEnv :=
  ⟨false, false, true, .error (), .error (), .ok bigDocxText, .error ()⟩

/-- Decoder outcomes for a `.txt` file whose raw decode yields nothing. -/
def envEmptyTxt : ExtractEnv :=
  ⟨false, false, false, .error (), .error (), .error (), .ok ""⟩

/-! ## Lemmas -/

theorem jsTruthy_vUndefined : jsTruthy .vUndefined = false := rfl

theorem jsTruthy_vNull : jsTruthy .vNull = false := rfl

theorem jsTruthy_emptyStr : jsTruthy (.vStr "") = false := by decide

theorem jsOr_pos {a : Value} (h : jsTruthy a = true) (b : Value) :
    jsOr a b = a := by simp [jsOr, h]

theorem jsOr_neg {a : Value} (h : jsTruthy a = false) (b : Value) :
    jsOr a b = b := by simp [jsOr, h]

theorem jsOr_eq_snd_of_falsy {a b : Value} (h : jsTruthy (jsOr a b) = false) :
    jsOr a b = b := by
  by_cases ha : jsTruthy a = true
  · rw [jsOr_pos ha] at h; simp [ha] at h
  · exact jsOr_neg (by simpa using ha) b

theorem jsTruthy_snd_of_falsy {a b : Value} (h : jsTruthy (jsOr a b) = false) :
    jsTruthy b = false := by rwa [jsOr_eq_snd_of_falsy h] at h

theorem jsOr_fix0 {x tail : Value} (ht : jsTruthy tail = false) :
    jsOr (jsOr x tail) tail = jsOr x tail := by
  by_cases h : jsTruthy (jsOr x tail) = true
  · exact jsOr_pos h tail
  · have h' : jsTruthy (jsOr x tail) = false := by simpa using h
    rw [jsOr_eq_snd_of_falsy h']
    exact jsOr_neg ht tail

theorem jsOr_fix1 {x tail : Value} (ht : jsTruthy tail = false) :
    jsOr (jsOr (jsOr x tail) .vUndefined) tail = jsOr x tail := by
  by_cases h : jsTruthy (jsOr x tail) = true
  · rw [jsOr_pos h, jsOr_pos h]
  · have h' : jsTruthy (jsOr x tail) = false := by simpa using h
    rw [jsOr_eq_snd_of_falsy h', jsOr_neg ht]
    exact jsOr_neg jsTruthy_vUndefined tail

theorem jsOr_fix2 {x tail : Value} (ht : jsTruthy tail = false) :
    jsOr (jsOr (jsOr (jsOr x tail) .vUndefined) .vUndefined) tail = jsOr x tail := by
  by_cases h : jsTruthy (jsOr x tail) = true
  · rw [jsOr_pos h, jsOr_pos h, jsOr_pos h]
  · have h' : jsTruthy (jsOr x tail) = false := by simpa using h
    rw [jsOr_eq_snd_of_falsy h', jsOr_neg ht, jsOr_neg jsTruthy_vUndefined]
    exact jsOr_neg jsTruthy_vUndefined tail

theorem jsOr_fixEmail (se ce m : Value) :
    jsOr (jsOr (jsOr .vUndefined (jsOr (jsOr (jsOr se ce) m) .vNull)) m) .vNull
      = jsOr (jsOr (jsOr se ce) m) .vNull := by
  by_cases h : jsTruthy (jsOr (jsOr (jsOr se ce) m) .vNull) = true
  · rw [jsOr_neg jsTruthy_vUndefined, jsOr_pos h, jsOr_pos h]
  · have h' : jsTruthy (jsOr (jsOr (jsOr se ce) m) .vNull) = false := by
      simpa using h
    have hm : jsTruthy m = false := by
      have hX : jsTruthy (jsOr (jsOr se ce) m) = false := by
        by_cases hx : jsTruthy (jsOr (jsOr se ce) m) = true
        · rw [jsOr_pos hx] at h'; simp [hx] at h'
        · simpa using hx
      exact jsTruthy_snd_of_falsy hX
    rw [jsOr_eq_snd_of_falsy h', jsOr_neg jsTruthy_vUndefined,
      jsOr_neg jsTruthy_vNull, jsOr_neg hm]

theorem dropWhile_twice {α} (p : α → Bool) (l : List α) :
    (l.dropWhile p).dropWhile p = l.dropWhile p := by
  induction l with
  | nil => rfl
  | cons a t ih =>
    rw [List.dropWhile_cons]
    by_cases hpa : p a
    · rw [if_pos hpa]; exact ih
    · rw [if_neg hpa, List.dropWhile_cons, if_neg hpa]

theorem dropWhile_head_false {α} (p : α → Bool) {l t : List α} {a : α}
    (h : l.dropWhile p = a :: t) : p a = false := by
  induction l with
  | nil => simp at h
  | cons b m ih =>
    rw [List.dropWhile_cons] at h
    by_cases hpb : p b
    · rw [if_pos hpb] at h; exact ih h
    · rw [if_neg hpb] at h
      injection h with h1 _
      subst h1
      simpa using hpb

theorem jsTrim_idem (s : String) : jsTrim (jsTrim s) = jsTrim s := by
  unfold jsTrim
  show String.mk ((((((s.data.dropWhile jsIsWs).reverse.dropWhile
    jsIsWs).reverse).dropWhile jsIsWs).reverse.dropWhile jsIsWs).reverse) = _
  have hB : (((s.data.dropWhile jsIsWs).reverse.dropWhile
      jsIsWs).reverse).dropWhile jsIsWs
      = ((s.data.dropWhile jsIsWs).reverse.dropWhile jsIsWs).reverse := by
    cases hA : s.data.dropWhile jsIsWs with
    | nil => simp
    | cons a t =>
      have hpa : jsIsWs a = false := dropWhile_head_false jsIsWs hA
      rw [List.reverse_cons, List.dropWhile_append]
      by_cases hemp : (t.reverse.dropWhile jsIsWs).isEmpty = true
      · rw [if_pos hemp]
        simp [hpa]
      · rw [if_neg hemp]
        rw [List.reverse_append]
        simp [hpa]
  rw [hB, List.reverse_reverse, dropWhile_twice]

theorem normalizeSkills_mem {v : Value} {s : String}
    (h : s ∈ normalizeSkills v) : jsTrim s = s ∧ s ≠ "" := by
  cases v with
  | vArr xs =>
    simp only [normalizeSkills, List.mem_filter, List.mem_map] at h
    obtain ⟨⟨a, _, rfl⟩, hne⟩ := h
    exact ⟨jsTrim_idem _, by simpa using hne⟩
  | vStr str =>
    simp only [normalizeSkills, List.mem_filter, List.mem_map] at h
    obtain ⟨⟨a, _, rfl⟩, hne⟩ := h
    exact ⟨jsTrim_idem _, by simpa using hne⟩
  | vNull => simp [normalizeSkills] at h
  | vUndefined => simp [normalizeSkills] at h
  | vBool b => simp [normalizeSkills] at h
  | vInt n => simp [normalizeSkills] at h
  | vObj fs => simp [normalizeSkills] at h

theorem normalizeSkills_canon (l : List String)
    (h : ∀ s ∈ l, jsTrim s = s ∧ s ≠ "") :
    normalizeSkills (.vArr (l.map .vStr)) = l := by
  show ((l.map Value.vStr).map fun s => jsTrim (jsToString s)).filter
    (fun s => decide (s ≠ "")) = l
  rw [List.map_map]
  have hmap : l.map ((fun s => jsTrim (jsToString s)) ∘ Value.vStr) = l := by
    have := List.map_congr_left (l := l)
      (f := (fun s => jsTrim (jsToString s)) ∘ Value.vStr) (g := id)
      (fun a ha => (h a ha).1)
    simpa using this
  rw [hmap, List.filter_eq_self.mpr]
  intro a ha
  simpa using (h a ha).2

theorem normalizeSkills_idemArr (v : Value) :
    normalizeSkills (.vArr ((normalizeSkills v).map .vStr)) = normalizeSkills v :=
  normalizeSkills_canon _ (fun _ hs => normalizeSkills_mem hs)

theorem jsOr_mkProfile (a b c d e f g h w : Value) :
    jsOr (mkProfile a b c d e f g h) w = mkProfile a b c d e f g h := rfl

theorem jsOr_mkContact (n e p l w : Value) :
    jsOr (mkContact n e p l) w = mkContact n e p l := rfl

theorem jsOr_mkExpEntry (t c s e r w : Value) :
    jsOr (mkExpEntry t c s e r) w = mkExpEntry t c s e r := rfl

theorem jsOr_vArr (xs : List Value) (w : Value) :
    jsOr (.vArr xs) w = .vArr xs := rfl

theorem pGet_skills (a b c d e f g h : Value) :
    objGet (mkProfile a b c d e f g h) "skills" = a := rfl

theorem pGet_contact (a b c d e f g h : Value) :
    objGet (mkProfile a b c d e f g h) "contact" = b := rfl

theorem pGet_summary (a b c d e f g h : Value) :
    objGet (mkProfile a b c d e f g h) "summary" = c := rfl

theorem pGet_experience (a b c d e f g h : Value) :
    objGet (mkProfile a b c d e f g h) "experience" = d := rfl

theorem pGet_education (a b c d e f g h : Value) :
    objGet (mkProfile a b c d e f g h) "education" = e := rfl

theorem pGet_certifications (a b c d e f g h : Value) :
    objGet (mkProfile a b c d e f g h) "certifications" = f := rfl

theorem pGet_languages (a b c d e f g h : Value) :
    objGet (mkProfile a b c d e f g h) "languages" = g := rfl

theorem pGet_links (a b c d e f g h : Value) :
    objGet (mkProfile a b c d e f g h) "links" = h := rfl

theorem pGet_name (a b c d e f g h : Value) :
    objGet (mkProfile a b c d e f g h) "name" = .vUndefined := rfl

theorem pGet_email (a b c d e f g h : Value) :
    objGet (mkProfile a b c d e f g h) "email" = .vUndefined := rfl

theorem pGet_phone (a b c d e f g h : Value) :
    objGet (mkProfile a b c d e f g h) "phone" = .vUndefined := rfl

theorem pGet_location (a b c d e f g h : Value) :
    objGet (mkProfile a b c d e f g h) "location" = .vUndefined := rfl

theorem cGet_name (n e p l : Value) : objGet (mkContact n e p l) "name" = n := rfl

theorem cGet_email (n e p l : Value) : objGet (mkContact n e p l) "email" = e := rfl

theorem cGet_phone (n e p l : Value) : objGet (mkContact n e p l) "phone" = p := rfl

theorem cGet_location (n e p l : Value) :
    objGet (mkContact n e p l) "location" = l := rfl

theorem eGet_title (t c s e r : Value) :
    objGet (mkExpEntry t c s e r) "title" = t := rfl

theorem eGet_company (t c s e r : Value) :
    objGet (mkExpEntry t c s e r) "company" = c := rfl

theorem eGet_start (t c s e r : Value) :
    objGet (mkExpEntry t c s e r) "start_date" = s := rfl

theorem eGet_end (t c s e r : Value) :
    objGet (mkExpEntry t c s e r) "end_date" = e := rfl

theorem eGet_resps (t c s e r : Value) :
    objGet (mkExpEntry t c s e r) "responsibilities" = r := rfl

theorem eGet_role (t c s e r : Value) :
    objGet (mkExpEntry t c s e r) "role" = .vUndefined := rfl

theorem eGet_organization (t c s e r : Value) :
    objGet (mkExpEntry t c s e r) "organization" = .vUndefined := rfl

theorem eGet_startDate (t c s e r : Value) :
    objGet (mkExpEntry t c s e r) "startDate" = .vUndefined := rfl

theorem eGet_from (t c s e r : Value) :
    objGet (mkExpEntry t c s e r) "from" = .vUndefined := rfl

theorem eGet_endDate (t c s e r : Value) :
    objGet (mkExpEntry t c s e r) "endDate" = .vUndefined := rfl

theorem eGet_to (t c s e r : Value) :
    objGet (mkExpEntry t c s e r) "to" = .vUndefined := rfl

theorem eGet_responsibility (t c s e r : Value) :
    objGet (mkExpEntry t c s e r) "responsibility" = .vUndefined := rfl

theorem normExpEntry_idem (i : Value) :
    normExpEntry (normExpEntry i) = normExpEntry i := by
  conv_lhs => rw [normExpEntry]
  rw [show normExpEntry i = mkExpEntry
    (jsOr (jsOr (objGet (jsOr i (.vObj [])) "title")
      (objGet (jsOr i (.vObj [])) "role")) (.vStr ""))
    (jsOr (jsOr (objGet (jsOr i (.vObj [])) "company")
      (objGet (jsOr i (.vObj [])) "organization")) (.vStr ""))
    (jsOr (jsOr (jsOr (objGet (jsOr i (.vObj [])) "start_date")
      (objGet (jsOr i (.vObj [])) "startDate"))
      (objGet (jsOr i (.vObj [])) "from")) (.vStr ""))
    (jsOr (jsOr (jsOr (objGet (jsOr i (.vObj [])) "end_date")
      (objGet (jsOr i (.vObj [])) "endDate"))
      (objGet (jsOr i (.vObj [])) "to")) (.vStr ""))
    (.vArr ((normalizeSkills (jsOr (jsOr
      (objGet (jsOr i (.vObj [])) "responsibilities")
      (objGet (jsOr i (.vObj [])) "responsibility")) (.vArr []))).map .vStr))
    from rfl]
  rw [jsOr_mkExpEntry, eGet_title, eGet_role, eGet_company, eGet_organization,
    eGet_start, eGet_startDate, eGet_from, eGet_end, eGet_endDate, eGet_to,
    eGet_resps, eGet_responsibility, jsOr_vArr, jsOr_vArr,
    jsOr_fix1 jsTruthy_emptyStr, jsOr_fix1 jsTruthy_emptyStr,
    jsOr_fix2 jsTruthy_emptyStr, jsOr_fix2 jsTruthy_emptyStr,
    normalizeSkills_idemArr]

theorem normalizeExperience_idem (v : Value) :
    normalizeExperience (.vArr (normalizeExperience v)) = normalizeExperience v := by
  show (normalizeExperience v).map normExpEntry = normalizeExperience v
  cases v with
  | vArr xs =>
    show (xs.map normExpEntry).map normExpEntry = xs.map normExpEntry
    rw [List.map_map]
    exact List.map_congr_left fun a _ => normExpEntry_idem a
  | vNull => rfl
  | vUndefined => rfl
  | vBool b => rfl
  | vInt n => rfl
  | vStr s => rfl
  | vObj fs => rfl

theorem eduCoerce_idem (v : Value) : eduCoerce (eduCoerce v) = eduCoerce v := by
  cases v <;> rfl

theorem normalizeParsed_eq (x : Value) (t : String) :
    normalizeParsed x t = mkProfile
      (.vArr ((normalizeSkills (objGet (jsOr x (.vObj [])) "skills")).map .vStr))
      (mkContact
        (jsOr (jsOr
          (objGet (jsOr (objGet (jsOr x (.vObj [])) "contact") (.vObj [])) "name")
          (objGet (jsOr x (.vObj [])) "name")) .vNull)
        (jsOr (jsOr (jsOr (objGet (jsOr x (.vObj [])) "email")
          (objGet (jsOr (objGet (jsOr x (.vObj [])) "contact") (.vObj [])) "email"))
          (matchToValue (reSearch emailItems t.data))) .vNull)
        (jsOr (jsOr (jsOr (objGet (jsOr x (.vObj [])) "phone")
          (objGet (jsOr (objGet (jsOr x (.vObj [])) "contact") (.vObj [])) "phone"))
          (matchToValue (reSearch phoneItems t.data))) .vNull)
        (jsOr (jsOr
          (objGet (jsOr (objGet (jsOr x (.vObj [])) "contact") (.vObj [])) "location")
          (objGet (jsOr x (.vObj [])) "location")) .vNull))
      (jsOr (objGet (jsOr x (.vObj [])) "summary") (.vStr ""))
      (.vArr (normalizeExperience (objGet (jsOr x (.vObj [])) "experience")))
      (eduCoerce (objGet (jsOr x (.vObj [])) "education"))
      (.vArr ((normalizeSkills (objGet (jsOr x (.vObj [])) "certifications")).map .vStr))
      (.vArr ((normalizeSkills (objGet (jsOr x (.vObj [])) "languages")).map .vStr))
      (.vArr ((normalizeSkills (objGet (jsOr x (.vObj [])) "links")).map .vStr)) :=
  rfl

/-- C6: `normalize(normalize(x, t), t) = normalize(x, t)`. -/
theorem normalizeParsed_idem (x : Value) (t : String) :
    normalizeParsed (normalizeParsed x t) t = normalizeParsed x t := by
  conv_lhs => rw [normalizeParsed_eq (normalizeParsed x t) t]
  rw [normalizeParsed_eq x t]
  rw [jsOr_mkProfile, pGet_skills, pGet_contact, jsOr_mkContact, pGet_summary,
    pGet_experience, pGet_education, pGet_certifications, pGet_languages,
    pGet_links, pGet_name, pGet_email, pGet_phone, pGet_location, cGet_name,
    cGet_email, cGet_phone, cGet_location]
  rw [normalizeSkills_idemArr, normalizeSkills_idemArr, normalizeSkills_idemArr,
    normalizeSkills_idemArr, normalizeExperience_idem, eduCoerce_idem,
    jsOr_fix0 jsTruthy_emptyStr, jsOr_fix1 jsTruthy_vNull,
    jsOr_fix1 jsTruthy_vNull, jsOr_fixEmail, jsOr_fixEmail]

theorem mem_map_vStr_normalizeSkills {v w : Value}
    (h : w ∈ (normalizeSkills v).map Value.vStr) :
    ∃ s, w = .vStr s ∧ s ≠ "" ∧ jsTrim s = s := by
  obtain ⟨s, hs, rfl⟩ := List.mem_map.mp h
  exact ⟨s, rfl, (normalizeSkills_mem hs).2, (normalizeSkills_mem hs).1⟩

theorem normExpEntry_resps (i : Value) :
    objGet (normExpEntry i) "responsibilities"
      = .vArr ((normalizeSkills (jsOr (jsOr
          (objGet (jsOr i (.vObj [])) "responsibilities")
          (objGet (jsOr i (.vObj [])) "responsibility")) (.vArr []))).map .vStr) :=
  rfl

/-- C10: every element of the `skills`, `certifications`, `languages` and
`links` arrays — and of each experience entry's `responsibilities` array —
of a normalized profile is a non-blank string with no leading or trailing
whitespace (its own `trim` fixes it); hence a non-empty `skills` array can
never be all-blank. -/
theorem normalized_list_fields_trimmed_nonempty (x : Value) (t : String) :
    (∀ w ∈ arrList (objGet (normalizeParsed x t) "skills"),
      ∃ s, w = Value.vStr s ∧ s ≠ "" ∧ jsTrim s = s)
  ∧ (∀ w ∈ arrList (objGet (normalizeParsed x t) "certifications"),
      ∃ s, w = Value.vStr s ∧ s ≠ "" ∧ jsTrim s = s)
  ∧ (∀ w ∈ arrList (objGet (normalizeParsed x t) "languages"),
      ∃ s, w = Value.vStr s ∧ s ≠ "" ∧ jsTrim s = s)
  ∧ (∀ w ∈ arrList (objGet (normalizeParsed x t) "links"),
      ∃ s, w = Value.vStr s ∧ s ≠ "" ∧ jsTrim s = s)
  ∧ (∀ e ∈ arrList (objGet (normalizeParsed x t) "experience"),
      ∀ w ∈ arrList (objGet e "responsibilities"),
        ∃ s, w = Value.vStr s ∧ s ≠ "" ∧ jsTrim s = s)
  ∧ (arrList (objGet (normalizeParsed x t) "skills") ≠ [] →
      ¬ ∀ w ∈ arrList (objGet (normalizeParsed x t) "skills"),
          ∃ s, w = Value.vStr s ∧ jsTrim s = "") := by
  rw [normalizeParsed_eq x t, pGet_skills, pGet_certifications, pGet_languages,
    pGet_links, pGet_experience]
  refine ⟨fun w hw => mem_map_vStr_normalizeSkills hw,
    fun w hw => mem_map_vStr_normalizeSkills hw,
    fun w hw => mem_map_vStr_normalizeSkills hw,
    fun w hw => mem_map_vStr_normalizeSkills hw, ?_, ?_⟩
  · intro e he w hw
    show ∃ s, _
    cases hv : objGet (jsOr x (.vObj [])) "experience" with
    | vArr xs =>
      rw [hv] at he
      obtain ⟨i, _, rfl⟩ := List.mem_map.mp
        (by simpa [normalizeExperience, arrList] using he)
      rw [normExpEntry_resps] at hw
      exact mem_map_vStr_normalizeSkills (by simpa [arrList] using hw)
    | vNull => rw [hv] at he; simp [normalizeExperience, arrList] at he
    | vUndefined => rw [hv] at he; simp [normalizeExperience, arrList] at he
    | vBool b => rw [hv] at he; simp [normalizeExperience, arrList] at he
    | vInt n => rw [hv] at he; simp [normalizeExperience, arrList] at he
    | vStr s => rw [hv] at he; simp [normalizeExperience, arrList] at he
    | vObj fs => rw [hv] at he; simp [normalizeExperience, arrList] at he
  · intro hne hall
    show False
    have hcons : ∃ w, w ∈ arrList (Value.vArr ((normalizeSkills
        (objGet (jsOr x (.vObj [])) "skills")).map .vStr)) := by
      cases hl : arrList (Value.vArr ((normalizeSkills
          (objGet (jsOr x (.vObj [])) "skills")).map .vStr)) with
      | nil => exact absurd hl hne
      | cons a l => exact ⟨a, hl ▸ List.mem_cons_self a l⟩
    obtain ⟨w, hw⟩ := hcons
    obtain ⟨s, rfl, hsne, hfix⟩ := mem_map_vStr_normalizeSkills
      (by simpa [arrList] using hw)
    obtain ⟨s', hs', hblank⟩ := hall _ hw
    cases Value.vStr.inj hs'
    exact hsne (hfix ▸ hblank)

/-- C8 counterexample: the canonical profile carries eight top-level
keys, not nine. -/
theorem profile_has_eight_keys_not_nine :
    (objKeys (normalizeParsed (.vObj []) "")).length = 8 ∧
      ¬ (objKeys (normalizeParsed (.vObj []) "")).length = 9 :=
  ⟨rfl, by decide⟩

/-- C8 (amended): `normalize` always returns a profile with exactly the
eight top-level keys skills, contact, summary, experience, education,
certifications, languages, links; on `({}, "")` it returns the
fully-populated empty profile (arrays empty, contact fields null,
summary `""`). -/
theorem normalizeParsed_keys_and_empty_input :
    (∀ (x : Value) (t : String), objKeys (normalizeParsed x t) =
      ["skills", "contact", "summary", "experience", "education",
       "certifications", "languages", "links"])
  ∧ normalizeParsed (.vObj []) "" = mkProfile (.vArr [])
      (mkContact .vNull .vNull .vNull .vNull) (.vStr "") (.vArr [])
      (.vArr []) (.vArr []) (.vArr []) (.vArr []) :=
  ⟨fun _ _ => rfl, rfl⟩

/-- C9: on `"Java, Java, python AND the SQL"` the heuristic builder
yields skills `Java` (exactly once, also case-insensitively), `python`
and `SQL`, excludes the stop words `and`/`the`, and sets the fixed
heuristic marker summary. -/
theorem heuristic_java_python_sql :
    arrList (objGet (heuristicParsed "Java, Java, python AND the SQL") "skills")
      = [.vStr "Java", .vStr "python", .vStr "SQL"]
  ∧ (extractSkillsHeuristic "Java, Java, python AND the SQL").count "Java" = 1
  ∧ ((extractSkillsHeuristic "Java, Java, python AND the SQL").map
      jsToLower).count "java" = 1
  ∧ "python" ∈ extractSkillsHeuristic "Java, Java, python AND the SQL"
  ∧ "SQL" ∈ extractSkillsHeuristic "Java, Java, python AND the SQL"
  ∧ "and" ∉ extractSkillsHeuristic "Java, Java, python AND the SQL"
  ∧ "AND" ∉ extractSkillsHeuristic "Java, Java, python AND the SQL"
  ∧ "the" ∉ extractSkillsHeuristic "Java, Java, python AND the SQL"
  ∧ (∀ s ∈ extractSkillsHeuristic "Java, Java, python AND the SQL",
      jsToLower s ∉ commonStop)
  ∧ objGet (heuristicParsed "Java, Java, python AND the SQL") "summary"
      = .vStr "Parsed resume text without AI (heuristic fallback)" :=
  ⟨rfl, by decide, by decide, by decide, by decide, by decide, by decide,
    by decide, by decide, rfl⟩

theorem aiAttempt_trace (r : String) (rep : Except Unit (Option String))
    (tt : String) (i : Nat) :
    (aiAttempt r rep tt i).2 = [.prim i] ∨
      (aiAttempt r rep tt i).2 = [.prim i, .rep i] := by
  unfold aiAttempt
  cases parseAiResponseToJson r tt <;> simp

theorem aiParseResume_trace (o : AiOracle) (t : String) :
    (aiParseResume o t).2 =
      if needsRetry (aiAttempt o.resp1 o.repair1 (jsSlice t 15000) 1).1 then
        (aiAttempt o.resp1 o.repair1 (jsSlice t 15000) 1).2 ++
          (aiAttempt o.resp2 o.repair2 (jsSlice t 15000) 2).2
      else (aiAttempt o.resp1 o.repair1 (jsSlice t 15000) 1).2 := by
  by_cases hr : needsRetry (aiAttempt o.resp1 o.repair1 (jsSlice t 15000) 1).1
  · simp only [aiParseResume, hr, if_true]
    cases (aiAttempt o.resp2 o.repair2 (jsSlice t 15000) 2).1 <;> simp
  · simp only [aiParseResume, hr, if_false, Bool.false_eq_true]
    cases (aiAttempt o.resp1 o.repair1 (jsSlice t 15000) 1).1 <;> simp

theorem aiParseResume_result (o : AiOracle) (t : String) :
    (aiParseResume o t).1 =
      if needsRetry (aiAttempt o.resp1 o.repair1 (jsSlice t 15000) 1).1 then
        match (aiAttempt o.resp2 o.repair2 (jsSlice t 15000) 2).1 with
        | some v => .ok v
        | none => .error "AI parse failed"
      else
        match (aiAttempt o.resp1 o.repair1 (jsSlice t 15000) 1).1 with
        | some v => .ok v
        | none => .error "AI parse failed" := by
  by_cases hr : needsRetry (aiAttempt o.resp1 o.repair1 (jsSlice t 15000) 1).1
  · simp only [aiParseResume, hr, if_true]
    cases (aiAttempt o.resp2 o.repair2 (jsSlice t 15000) 2).1 <;> simp
  · simp only [aiParseResume, hr, if_false, Bool.false_eq_true]
    cases (aiAttempt o.resp1 o.repair1 (jsSlice t 15000) 1).1 <;> simp

theorem needsRetry_iff (fp : Option Value) :
    needsRetry fp = true ↔
      (fp = none ∨ ∃ v, fp = some v ∧ profileEmptyB v = true) := by
  cases fp <;> simp [needsRetry]

theorem needsRetry_false_some {fp : Option Value}
    (h : needsRetry fp = false) : ∃ v, fp = some v := by
  cases fp with
  | none => simp [needsRetry] at h
  | some v => exact ⟨v, rfl⟩

theorem objFind_setFields_ne (fs : List (String × Value)) (k k' : String)
    (w : Value) (h : k ≠ k') :
    objFind (objSet.setFields fs k w) k' = objFind fs k' := by
  induction fs with
  | nil => simp [objSet.setFields, objFind, h]
  | cons kv fs ih =>
    obtain ⟨k0, v0⟩ := kv
    by_cases hk : k0 = k
    · subst hk
      simp [objSet.setFields, objFind, h]
    · by_cases hk' : k0 = k'
      · subst hk'
        simp [objSet.setFields, objFind, hk]
      · simp [objSet.setFields, objFind, hk, hk', ih]

theorem objGet_objSet_ne (p : Value) (k k' : String) (w : Value)
    (h : k ≠ k') : objGet (objSet p k w) k' = objGet p k' := by
  cases p with
  | vObj fs => exact objFind_setFields_ne fs k k' w h
  | vNull => rfl
  | vUndefined => rfl
  | vBool b => rfl
  | vInt n => rfl
  | vStr s => rfl
  | vArr xs => rfl

theorem profileEmptyB_objSet (p w : Value) (k : String)
    (h1 : k ≠ "skills") (h2 : k ≠ "experience") (h3 : k ≠ "contact") :
    profileEmptyB (objSet p k w) = profileEmptyB p := by
  unfold profileEmptyB
  rw [objGet_objSet_ne p k "skills" w h1, objGet_objSet_ne p k "experience" w h2,
    objGet_objSet_ne p k "contact" w h3]

/-- C3: the second, stricter model attempt fires exactly when the first
attempt (after its at-most-one repair) yielded no parseable JSON or a
normalized profile that is empty (skills empty/all-blank AND experience
empty AND no contact name/email/phone); the certifications, languages,
links and education fields play no role in that emptiness decision. -/
theorem second_attempt_iff_first_inadequate (o : AiOracle) (t : String)
    (p w : Value) :
    (AiCall.prim 2 ∈ (aiParseResume o t).2 ↔
      ((aiAttempt o.resp1 o.repair1 (jsSlice t 15000) 1).1 = none ∨
        ∃ v, (aiAttempt o.resp1 o.repair1 (jsSlice t 15000) 1).1 = some v ∧
          profileEmptyB v = true))
  ∧ profileEmptyB (objSet p "certifications" w) = profileEmptyB p
  ∧ profileEmptyB (objSet p "languages" w) = profileEmptyB p
  ∧ profileEmptyB (objSet p "links" w) = profileEmptyB p
  ∧ profileEmptyB (objSet p "education" w) = profileEmptyB p := by
  refine ⟨?_, profileEmptyB_objSet p w _ (by decide) (by decide) (by decide),
    profileEmptyB_objSet p w _ (by decide) (by decide) (by decide),
    profileEmptyB_objSet p w _ (by decide) (by decide) (by decide),
    profileEmptyB_objSet p w _ (by decide) (by decide) (by decide)⟩
  rw [← needsRetry_iff, aiParseResume_trace]
  by_cases hr : needsRetry (aiAttempt o.resp1 o.repair1 (jsSlice t 15000) 1).1
  · simp only [hr, if_true, iff_true]
    rcases aiAttempt_trace o.resp2 o.repair2 (jsSlice t 15000) 2 with h2 | h2 <;>
      rw [h2] <;> simp
  · simp only [hr, if_false, Bool.false_eq_true, iff_false]
    rcases aiAttempt_trace o.resp1 o.repair1 (jsSlice t 15000) 1 with h1 | h1 <;>
      rw [h1] <;> simp [hr]

/-- C5: a single `aiParseResume` request issues at most two primary
completion calls, at most one repair call per attempt, and so at most
four completion-service calls in total. -/
theorem aiParse_call_budget (o : AiOracle) (t : String) :
    ((aiParseResume o t).2).length ≤ 4
  ∧ (((aiParseResume o t).2).filter AiCall.isPrim).length ≤ 2
  ∧ (((aiParseResume o t).2).filter (fun c => c.is (.rep 1))).length ≤ 1
  ∧ (((aiParseResume o t).2).filter (fun c => c.is (.rep 2))).length ≤ 1 := by
  rw [aiParseResume_trace]
  rcases aiAttempt_trace o.resp1 o.repair1 (jsSlice t 15000) 1 with h1 | h1 <;>
  rcases aiAttempt_trace o.resp2 o.repair2 (jsSlice t 15000) 2 with h2 | h2 <;>
  by_cases hr : needsRetry (aiAttempt o.resp1 o.repair1 (jsSlice t 15000) 1).1 <;>
  simp [hr, h1, h2, AiCall.isPrim, AiCall.is]

/-- C4 counterexample: with a first response that IS valid JSON (`{}`,
normalizing to an empty profile over the contact-free text `"hi"`) and a
second attempt whose response and repair are unparseable, `aiParseResume`
still raises its AI-parse failure — refuting "fails only if neither
primary attempt's response nor either repair's response parses as JSON". -/
theorem aiParse_fail_despite_parsed_first_attempt :
    (aiParseResume oEmptyThenBad "hi").1 = .error "AI parse failed"
  ∧ jsonParse oEmptyThenBad.resp1 ≠ none := by
  refine ⟨rfl, ?_⟩
  rw [show jsonParse oEmptyThenBad.resp1 = some (.vObj []) from rfl]
  exact Option.some_ne_none _

/-- C4 (amended): `aiParseResume` raises its AI-parse failure iff the
second attempt fired (the first attempt, after its at-most-one repair,
yielded no JSON or an empty profile) and neither the second attempt's
response nor its repair parses as JSON; a second attempt that parses is
returned as success, with no exception for parsed-but-empty profiles. -/
theorem aiParse_fail_iff_second_attempt_unparseable (o : AiOracle)
    (t : String) :
    ((aiParseResume o t).1 = .error "AI parse failed" ↔
      (needsRetry (aiAttempt o.resp1 o.repair1 (jsSlice t 15000) 1).1 = true ∧
        (aiAttempt o.resp2 o.repair2 (jsSlice t 15000) 2).1 = none))
  ∧ ∀ v, needsRetry (aiAttempt o.resp1 o.repair1 (jsSlice t 15000) 1).1 = true →
      (aiAttempt o.resp2 o.repair2 (jsSlice t 15000) 2).1 = some v →
      (aiParseResume o t).1 = .ok v := by
  rw [aiParseResume_result]
  by_cases hr : needsRetry (aiAttempt o.resp1 o.repair1 (jsSlice t 15000) 1).1
  · constructor
    · cases h2 : (aiAttempt o.resp2 o.repair2 (jsSlice t 15000) 2).1 <;>
        simp [hr, h2]
    · intro v _ h2
      simp [hr, h2]
  · obtain ⟨v, h1⟩ := needsRetry_false_some (by simpa using hr)
    have hv : needsRetry (some v) = false := by rw [← h1]; simpa using hr
    constructor
    · simp [hr, h1, hv]
    · intro v' hne _
      exact absurd hne (by simpa using hr)

/-- Witness for the C4 amended theorem: a first attempt that never
parses followed by a second response `{}` makes the parser return the
parsed-but-empty profile as success. -/
theorem aiParse_fail_iff_witness :
    (aiParseResume oBadThenEmpty "zz").1 =
      .ok (normalizeParsed (.vObj []) (jsSlice "zz" 15000)) :=
  (aiParse_fail_iff_second_attempt_unparseable oBadThenEmpty "zz").2
    (normalizeParsed (.vObj []) (jsSlice "zz" 15000)) rfl rfl

theorem jsTrim_ne_imp_ne {t : String} (h : jsTrim t ≠ "") : t ≠ "" := by
  rintro rfl
  exact h rfl

theorem string_data_eq_nil {t : String} (h : t.data = []) : t = "" := by
  cases t
  simp_all

theorem jsSlice_ne_empty {t : String} {n : Nat} (ht : t ≠ "") (hn : 0 < n) :
    jsSlice t n ≠ "" := by
  intro h
  have hd : t.data.take n = [] := congrArg String.data h
  rcases List.take_eq_nil_iff.mp hd with h0 | hnil
  · omega
  · exact ht (string_data_eq_nil hnil)

theorem pdfjsBranch_none_iff (ext : String) (env : ExtractEnv) (maxChars : Nat) :
    pdfjsBranch ext env maxChars = none ↔
      ¬∃ t, ext = ".pdf" ∧ env.pdfjsAvail = true ∧
        env.pdfjsText = .ok t ∧ jsTrim t ≠ "" := by
  unfold pdfjsBranch
  by_cases hc : ext = ".pdf" ∧ env.pdfjsAvail = true
  · rw [if_pos hc]
    cases ht : env.pdfjsText with
    | ok t =>
      by_cases htr : jsTrim t ≠ "" <;> simp [htr, hc.1, hc.2]
    | error e => simp [ht]
  · rw [if_neg hc]
    simp only [true_iff]
    rintro ⟨t, h1, h2, _, _⟩
    exact hc ⟨h1, h2⟩

theorem pdfjsBranch_some {ext : String} {env : ExtractEnv} {maxChars : Nat}
    {r : String} (h : pdfjsBranch ext env maxChars = some r) :
    ∃ t, env.pdfjsText = .ok t ∧ jsTrim t ≠ "" ∧ r = jsSlice t maxChars := by
  unfold pdfjsBranch at h
  split at h
  · split at h
    · split at h
      · rename_i text heq htr
        exact ⟨text, heq, htr, (Option.some.inj h).symm⟩
      · cases h
    · cases h
  · cases h

theorem pdfParseBranch_none_iff (ext : String) (env : ExtractEnv)
    (maxChars : Nat) :
    pdfParseBranch ext env maxChars = none ↔
      ¬∃ t, ext = ".pdf" ∧ env.pdfParseAvail = true ∧
        env.pdfParseText = .ok t ∧ jsTrim t ≠ "" := by
  unfold pdfParseBranch
  by_cases hc : ext = ".pdf" ∧ env.pdfParseAvail = true
  · rw [if_pos hc]
    cases ht : env.pdfParseText with
    | ok t =>
      by_cases htr : jsTrim t ≠ ""
      · simp [htr, hc.1, hc.2, jsTrim_ne_imp_ne htr]
      · simp [htr, hc.1, hc.2]
    | error e => simp [ht]
  · rw [if_neg hc]
    simp only [true_iff]
    rintro ⟨t, h1, h2, _, _⟩
    exact hc ⟨h1, h2⟩

theorem pdfParseBranch_some {ext : String} {env : ExtractEnv} {maxChars : Nat}
    {r : String} (h : pdfParseBranch ext env maxChars = some r) :
    ∃ t, env.pdfParseText = .ok t ∧ jsTrim t ≠ "" ∧ r = jsSlice t maxChars := by
  unfold pdfParseBranch at h
  split at h
  · split at h
    · split at h
      · rename_i text heq htr
        exact ⟨text, heq, htr.2, (Option.some.inj h).symm⟩
      · cases h
    · cases h
  · cases h

theorem mammothBranch_none_iff (ext : String) (env : ExtractEnv) :
    mammothBranch ext env = none ↔
      ¬∃ t, (ext = ".docx" ∨ ext = ".doc") ∧ env.mammothAvail = true ∧
        env.mammothText = .ok t ∧ jsTrim t ≠ "" := by
  unfold mammothBranch
  by_cases hc : (ext = ".docx" ∨ ext = ".doc") ∧ env.mammothAvail = true
  · rw [if_pos hc]
    cases ht : env.mammothText with
    | ok t =>
      by_cases htr : jsTrim t ≠ ""
      · simp [htr, hc.1, hc.2, jsTrim_ne_imp_ne htr]
      · simp [htr, hc.1, hc.2]
    | error e => simp [ht]
  · rw [if_neg hc]
    simp only [true_iff]
    rintro ⟨t, h1, h2, _, _⟩
    exact hc ⟨h1, h2⟩

theorem mammothBranch_some {ext : String} {env : ExtractEnv} {r : String}
    (h : mammothBranch ext env = some r) :
    ∃ t, env.mammothText = .ok t ∧ jsTrim t ≠ "" ∧ r = t := by
  unfold mammothBranch at h
  split at h
  · split at h
    · split at h
      · rename_i value heq htr
        exact ⟨value, heq, htr.2, (Option.some.inj h).symm⟩
      · cases h
    · cases h
  · cases h

theorem rawBranch_none_iff (env : ExtractEnv) (maxChars : Nat) :
    rawBranch env maxChars = none ↔
      ¬∃ t, env.rawText = .ok t ∧ jsTrim t ≠ "" := by
  unfold rawBranch
  cases ht : env.rawText with
  | ok t => by_cases htr : jsTrim t ≠ "" <;> simp [htr]
  | error e => simp [ht]

theorem rawBranch_some {env : ExtractEnv} {maxChars : Nat} {r : String}
    (h : rawBranch env maxChars = some r) :
    ∃ t, env.rawText = .ok t ∧ jsTrim t ≠ "" ∧ r = jsSlice t maxChars := by
  unfold rawBranch at h
  split at h
  · split at h
    · rename_i text heq htr
      exact ⟨text, heq, htr, (Option.some.inj h).symm⟩
    · cases h
  · cases h

/-- C7: the extractor is a total function into strings, and it returns
`""` exactly when every decoder branch of the chain was skipped, threw,
or produced empty/whitespace-only text — including when the raw UTF-8
decode itself threw (e.g. on a missing buffer). -/
theorem extractResumeText_empty_iff (ext : String) (env : ExtractEnv)
    (maxChars : Nat) (h : 0 < maxChars) :
    extractResumeText ext env maxChars = "" ↔
      ((¬∃ t, ext = ".pdf" ∧ env.pdfjsAvail = true ∧
          env.pdfjsText = .ok t ∧ jsTrim t ≠ "")
       ∧ (¬∃ t, ext = ".pdf" ∧ env.pdfParseAvail = true ∧
          env.pdfParseText = .ok t ∧ jsTrim t ≠ "")
       ∧ (¬∃ t, (ext = ".docx" ∨ ext = ".doc") ∧ env.mammothAvail = true ∧
          env.mammothText = .ok t ∧ jsTrim t ≠ "")
       ∧ (¬∃ t, env.rawText = .ok t ∧ jsTrim t ≠ "")) := by
  unfold extractResumeText
  cases h1 : pdfjsBranch ext env maxChars with
  | some r =>
    obtain ⟨t, hok, htr, rfl⟩ := pdfjsBranch_some h1
    have hne := jsSlice_ne_empty (jsTrim_ne_imp_ne htr) h
    have hex : ∃ t, ext = ".pdf" ∧ env.pdfjsAvail = true ∧
        env.pdfjsText = .ok t ∧ jsTrim t ≠ "" := by
      by_contra hno
      rw [(pdfjsBranch_none_iff ext env maxChars).mpr hno] at h1
      cases h1
    exact ⟨fun he => absurd he hne, fun hc => absurd hex hc.1⟩
  | none =>
    have hn1 := (pdfjsBranch_none_iff ext env maxChars).mp h1
    cases h2 : pdfParseBranch ext env maxChars with
    | some r =>
      obtain ⟨t, hok, htr, rfl⟩ := pdfParseBranch_some h2
      have hne := jsSlice_ne_empty (jsTrim_ne_imp_ne htr) h
      have hex : ∃ t, ext = ".pdf" ∧ env.pdfParseAvail = true ∧
          env.pdfParseText = .ok t ∧ jsTrim t ≠ "" := by
        by_contra hno
        rw [(pdfParseBranch_none_iff ext env maxChars).mpr hno] at h2
        cases h2
      exact ⟨fun he => absurd he hne, fun hc => absurd hex hc.2.1⟩
    | none =>
      have hn2 := (pdfParseBranch_none_iff ext env maxChars).mp h2
      cases h3 : mammothBranch ext env with
      | some r =>
        obtain ⟨t, hok, htr, rfl⟩ := mammothBranch_some h3
        have hne := jsTrim_ne_imp_ne htr
        have hex : ∃ t, (ext = ".docx" ∨ ext = ".doc") ∧
            env.mammothAvail = true ∧ env.mammothText = .ok t ∧
            jsTrim t ≠ "" := by
          by_contra hno
          rw [(mammothBranch_none_iff ext env).mpr hno] at h3
          cases h3
        exact ⟨fun he => absurd he hne, fun hc => absurd hex hc.2.2.1⟩
      | none =>
        have hn3 := (mammothBranch_none_iff ext env).mp h3
        cases h4 : rawBranch env maxChars with
        | some r =>
          obtain ⟨t, hok, htr, rfl⟩ := rawBranch_some h4
          have hne := jsSlice_ne_empty (jsTrim_ne_imp_ne htr) h
          have hex : ∃ t, env.rawText = .ok t ∧ jsTrim t ≠ "" := ⟨t, hok, htr⟩
          exact ⟨fun he => absurd he hne, fun hc => absurd hex hc.2.2.2⟩
        | none =>
          have hn4 := (rawBranch_none_iff env maxChars).mp h4
          exact ⟨fun _ => ⟨hn1, hn2, hn3, hn4⟩, fun _ => rfl⟩

/-- Witness for C7: a `.txt` file whose raw decode is empty (all other
decoders unavailable) extracts to `""` under the default 60,000 cap. -/
theorem extractResumeText_empty_iff_witness :
    extractResumeText ".txt" envEmptyTxt 60000 = "" := by
  rw [extractResumeText_empty_iff ".txt" envEmptyTxt 60000 (by decide)]
  refine ⟨?_, ?_, ?_, ?_⟩
  · rintro ⟨t, hpdf, -⟩
    exact absurd hpdf (by decide)
  · rintro ⟨t, hpdf, -⟩
    exact absurd hpdf (by decide)
  · rintro ⟨t, hdoc, -⟩
    rcases hdoc with hd | hd <;> exact absurd hd (by decide)
  · rintro ⟨t, hok, htr⟩
    have h' : (Except.ok "" : Except Unit String) = .ok t := hok
    injection h' with ht
    cases ht
    exact htr rfl

theorem replicate_dropWhile :
    (List.replicate 60001 'a').dropWhile jsIsWs = List.replicate 60001 'a' := by
  rw [List.replicate_succ, List.dropWhile_cons,
    if_neg (by decide : ¬jsIsWs 'a' = true), ← List.replicate_succ]

theorem bigDocxText_trim : jsTrim bigDocxText = bigDocxText := by
  show String.mk ((((List.replicate 60001 'a').dropWhile
    jsIsWs).reverse.dropWhile jsIsWs).reverse) = bigDocxText
  rw [replicate_dropWhile, List.reverse_replicate, replicate_dropWhile,
    List.reverse_replicate]
  rfl

theorem bigDocxText_ne : bigDocxText ≠ "" := by
  intro hEq
  have hd : List.replicate 60001 'a' = [] := congrArg String.data hEq
  have hl := congrArg List.length hd
  rw [List.length_replicate] at hl
  exact absurd hl (by decide)

theorem bigDocxText_length : bigDocxText.length = 60001 := by
  show (List.replicate 60001 'a').length = 60001
  exact List.length_replicate _ _

theorem mammothBranch_ok (ext : String) (env : ExtractEnv) (t : String)
    (hc : (ext = ".docx" ∨ ext = ".doc") ∧ env.mammothAvail = true)
    (hok : env.mammothText = .ok t) (hne : t ≠ "") (htr : jsTrim t ≠ "") :
    mammothBranch ext env = some t := by
  unfold mammothBranch
  rw [if_pos hc]
  simp only [hok]
  rw [if_pos ⟨hne, htr⟩]

theorem mammothBranch_bigDocx :
    mammothBranch ".docx" envBigDocx = some bigDocxText :=
  mammothBranch_ok ".docx" envBigDocx bigDocxText ⟨Or.inl rfl, rfl⟩ rfl
    bigDocxText_ne (by rw [bigDocxText_trim]; exact bigDocxText_ne)

/-- C2 (code bug): the DOC/DOCX (mammoth) branch returns its text
without applying the `maxChars` cap — a `.docx` whose mammoth extraction
yields 60,001 characters is returned whole, exceeding the default
60,000-character cap that every other branch applies. -/
theorem extract_via_mammoth (ext : String) (env : ExtractEnv) (maxChars : Nat)
    (t : String) (h1 : pdfjsBranch ext env maxChars = none)
    (h2 : pdfParseBranch ext env maxChars = none)
    (h3 : mammothBranch ext env = some t) :
    extractResumeText ext env maxChars = t := by
  unfold extractResumeText
  rw [h1, h2, h3]

theorem mammoth_branch_uncapped :
    extractResumeText ".docx" envBigDocx 60000 = bigDocxText
  ∧ bigDocxText.length = 60001 ∧ 60000 < bigDocxText.length :=
  ⟨extract_via_mammoth ".docx" envBigDocx 60000 bigDocxText rfl rfl
      mammothBranch_bigDocx,
    bigDocxText_length, by rw [bigDocxText_length]; omega⟩

/-- C1 counterexample: with no AI backend configured and non-blank
extracted text, the parse-resume route returns the `AI not configured`
error (HTTP 503), not the heuristic profile — `heuristicParsed` is never
invoked by the route. -/
theorem noAI_route_rejects_counterexample :
    parseResumeRoute false "hello resume" "" (.ok none) = .aiNotConfigured
  ∧ RouteResult.aiNotConfigured ≠
      RouteResult.parsedOk (heuristicParsed "hello resume") :=
  ⟨rfl, fun h => RouteResult.noConfusion h⟩

/-- C1 (amended): when no AI backend is configured, every resume-parse
request whose extracted text is non-blank fails with the
AI-not-configured error (503); the heuristic builder is dead code, not a
fallback. -/
theorem noAI_route_returns_503 (text resp : String)
    (rep : Except Unit (Option String)) (h : jsTrim text ≠ "") :
    parseResumeRoute false text resp rep = .aiNotConfigured := by
  unfold parseResumeRoute
  have htext : ¬(text = "" ∨ jsTrim text = "") := by
    rintro (rfl | hb)
    · exact h rfl
    · exact h hb
  rw [if_neg htext]
  rfl

/-- Witness for the C1 amended theorem at a concrete input. -/
theorem noAI_route_returns_503_witness :
    jsTrim "hello" ≠ "" ∧
      parseResumeRoute false "hello" "" (.ok none) = .aiNotConfigured :=
  ⟨by decide, noAI_route_returns_503 "hello" "" (.ok none) (by decide)⟩

/-- Witness for C10 at a concrete input: normalizing
`{skills: [" a "]}` yields the single skill `"a"`, non-blank and
trim-fixed. -/
theorem normalized_list_fields_witness :
    ∃ s, Value.vStr "a" = Value.vStr s ∧ s ≠ "" ∧ jsTrim s = s :=
  (normalized_list_fields_trimmed_nonempty rawWithSkill "").1 (Value.vStr "a")
    (show Value.vStr "a" ∈ [Value.vStr "a"] from List.mem_singleton.mpr rfl)
